import Mathlib

/-!
Shallow embedding of the client-side test-session state machine of
`src/contexts/TestContext.tsx`: question loading with fallback, the
session mutations (`selectAnswer`, `markForReview`, `navigateToQuestion`,
`nextQuestion`, `previousQuestion`, `endTest`) and the scoring/submission
logic of `submitTest`.  JavaScript numbers that can go negative (the
navigation cursor, answer indices) are modelled as `Int`; counts and
timestamps as `Nat`; `null` as `Option`.  The nondeterministic shuffle is
modelled by quantifying over an arbitrary permutation of the candidate
pool, and the remote store / backend collaborators by explicit parameters
describing their outcome.
-/

namespace TestContext

/-- `interface Question` of TestContext.tsx: the `correctAnswer` index is kept
as `Int` because the remote conversion computes `correct_answer - 1`, which can
be negative for malformed rows; `difficulty` is a plain string (the TS union
type is erased at runtime). -/
structure Question where
  id : String
  subject : String
  question : String
  options : List String
  correctAnswer : Int
  difficulty : String
deriving DecidableEq

/-- `interface TestAnswer` of TestContext.tsx; `selectedAnswer : number | null`
becomes `Option Int`. -/
structure TestAnswer where
  questionId : String
  selectedAnswer : Option Int
  timeSpent : Nat
  marked : Bool
deriving DecidableEq

/-- `interface TestState` of TestContext.tsx; `startTime : Date | null` is
modelled as an optional millisecond timestamp. -/
structure TestState where
  questions : List Question
  answers : List TestAnswer
  currentQuestion : Int
  timeRemaining : Nat
  isActive : Bool
  startTime : Option Nat
deriving DecidableEq

/-- The `User` shape consumed from the auth context (only `email` is used by
`submitTest`). -/
structure User where
  id : String
  email : String
  name : String
  picture : Option String
  isRegistered : Option Bool
deriving DecidableEq

/-- The `mockQuestions` array of TestContext.tsx, transcribed verbatim. -/
def mockQuestions : List Question :=
  [ { id := "math_1", subject := "Math", question := "What is 15 × 8?",
      options := ["120", "110", "130", "125"], correctAnswer := 0, difficulty := "easy" },
    { id := "math_2", subject := "Math", question := "Solve for x: 2x + 5 = 17",
      options := ["6", "5", "7", "8"], correctAnswer := 0, difficulty := "medium" },
    { id := "science_1", subject := "Science", question := "What is the chemical symbol for gold?",
      options := ["Go", "Gd", "Au", "Ag"], correctAnswer := 2, difficulty := "easy" },
    { id := "science_2", subject := "Science", question := "Which planet is known as the Red Planet?",
      options := ["Venus", "Mars", "Jupiter", "Saturn"], correctAnswer := 1, difficulty := "easy" },
    { id := "reasoning_1", subject := "Reasoning",
      question := "If all roses are flowers and some flowers are red, then:",
      options := ["All roses are red", "Some roses are red", "No roses are red", "Cannot be determined"],
      correctAnswer := 3, difficulty := "medium" },
    { id := "reasoning_2", subject := "Reasoning",
      question := "What comes next in the sequence: 2, 6, 12, 20, ?",
      options := ["28", "30", "32", "34"], correctAnswer := 1, difficulty := "medium" } ]

/-- A raw row of the `questions` table as returned by the remote read
(`option_a..option_d`, 1-based `correct_answer`). -/
structure QuestionRow where
  id : Nat
  subject : String
  question : String
  option_a : String
  option_b : String
  option_c : String
  option_d : String
  correct_answer : Int
  difficulty : String
deriving DecidableEq

/-- The row conversion inside `loadQuestions`: options gathered into a list and
`correct_answer` shifted from 1-based to 0-based. -/
def convertRow (r : QuestionRow) : Question :=
  { id := toString r.id, subject := r.subject, question := r.question,
    options := [r.option_a, r.option_b, r.option_c, r.option_d],
    correctAnswer := r.correct_answer - 1, difficulty := r.difficulty }

/-- Outcome of the remote question read in `loadQuestions`: the query returned
an error, the query returned rows (possibly none), or the whole block threw. -/
inductive RemoteResult where
  | err : RemoteResult
  | ok : List QuestionRow → RemoteResult
  | thrown : RemoteResult
deriving DecidableEq

/-- The candidate pool chosen by `loadQuestions`: the converted remote rows when
the read succeeded with a nonempty result, otherwise the built-in
`mockQuestions` fallback (both the error/empty branch and the catch branch). -/
def selectedPool : RemoteResult → List Question
  | RemoteResult.err => mockQuestions
  | RemoteResult.ok rows =>
      if rows.length > 0 then rows.map convertRow else mockQuestions
  | RemoteResult.thrown => mockQuestions

/-- The default answer record built for a selected question (`selectedAnswer:
null, timeSpent: 0, marked: false`). -/
def initAnswer (q : Question) : TestAnswer :=
  { questionId := q.id, selectedAnswer := none, timeSpent := 0, marked := false }

/-- The `setTestState` call at the end of `loadQuestions`: a fresh active
session over the chosen questions, with the parallel default answer records,
cursor 0 and the full 3600-second budget. -/
def initSession (finalQuestions : List Question) (now : Nat) : TestState :=
  { questions := finalQuestions,
    answers := finalQuestions.map initAnswer,
    currentQuestion := 0,
    timeRemaining := 3600,
    isActive := true,
    startTime := some now }

/-- `loadQuestions`, with the `Math.random` shuffle abstracted: `shuffled` is
the shuffled candidate pool (constrained to be a permutation of
`selectedPool r` wherever a theorem needs it) and the session keeps its first
`Math.min(6, length)` elements.  The function is total: no load failure
reaches the caller of `startTest`. -/
def loadQuestions (shuffled : List Question) (now : Nat) : TestState :=
  initSession (shuffled.take (min 6 shuffled.length)) now

/-- `endTest`: clears the active flag, leaving everything else untouched. -/
def endTest (st : TestState) : TestState :=
  { st with isActive := false }

/-- The per-record update performed by `selectAnswer`. -/
def selUpdate (questionId : String) (answer : Int) (a : TestAnswer) : TestAnswer :=
  if a.questionId == questionId then { a with selectedAnswer := some answer } else a

/-- `selectAnswer(questionId, answer)`: sets the selected option of every answer
record with that question id. -/
def selectAnswer (questionId : String) (answer : Int) (st : TestState) : TestState :=
  { st with answers := st.answers.map (selUpdate questionId answer) }

/-- The per-record toggle performed by `markForReview`. -/
def markUpdate (questionId : String) (a : TestAnswer) : TestAnswer :=
  if a.questionId == questionId then { a with marked := !a.marked } else a

/-- `markForReview(questionId)`: toggles the marked flag of every answer record
with that question id. -/
def markForReview (questionId : String) (st : TestState) : TestState :=
  { st with answers := st.answers.map (markUpdate questionId) }

/-- `navigateToQuestion(index)`: stores the index verbatim, with no clamping or
range check. -/
def navigateToQuestion (index : Int) (st : TestState) : TestState :=
  { st with currentQuestion := index }

/-- `nextQuestion`: `currentQuestion = Math.min(currentQuestion + 1,
questions.length - 1)`. -/
def nextQuestion (st : TestState) : TestState :=
  { st with currentQuestion := min (st.currentQuestion + 1) ((st.questions.length : Int) - 1) }

/-- `previousQuestion`: `currentQuestion = Math.max(currentQuestion - 1, 0)`. -/
def previousQuestion (st : TestState) : TestState :=
  { st with currentQuestion := max (st.currentQuestion - 1) 0 }

/-- The pairing walked by `submitTest`'s scoring loop: `answers.forEach((answer,
index))` together with `questions[index]`, skipping indices where the question
is `undefined`, is exactly the positional zip of the two sequences. -/
def scorePairs (st : TestState) : List (Question × TestAnswer) :=
  st.questions.zip st.answers

/-- The strict comparison `answer.selectedAnswer === question.correctAnswer`:
false whenever `selectedAnswer` is `null`. -/
def isCorrect (q : Question) (a : TestAnswer) : Bool :=
  match a.selectedAnswer with
  | some s => s == q.correctAnswer
  | none => false

/-- One iteration of the scoring loop: the `subjectScores` object viewed as a
map from subject to its `(correct, total)` tally; the entry for the current
question's subject is created at `(0, 0)` if absent, its total incremented, and
its correct count incremented when the answer matches. -/
def tallyAnswer (m : String → Option (Nat × Nat)) (p : Question × TestAnswer) :
    String → Option (Nat × Nat) :=
  fun s =>
    if s = p.1.subject then
      let base := (m s).getD (0, 0)
      some (base.1 + (if isCorrect p.1 p.2 then 1 else 0), base.2 + 1)
    else m s

/-- The finished `subjectScores` map after the whole loop. -/
def subjectScoresMap (pairs : List (Question × TestAnswer)) : String → Option (Nat × Nat) :=
  pairs.foldl tallyAnswer (fun _ => none)

/-- One key insertion of the `subjectScores` object: a subject is appended the
first time the loop meets it. -/
def addSubject (acc : List String) (p : Question × TestAnswer) : List String :=
  if p.1.subject ∈ acc then acc else acc ++ [p.1.subject]

/-- Key order of the `subjectScores` object: string keys enumerate in insertion
order, i.e. each subject at its first occurrence in the loop. -/
def presentSubjects (pairs : List (Question × TestAnswer)) : List String :=
  pairs.foldl addSubject []

/-- `scores.total > 0 ? Math.round((scores.correct / scores.total) * 100) : 0`,
with `Math.round` (round half towards positive infinity) on the nonnegative
rational `100 * c / t` written in integer arithmetic. -/
def subjectPercentage (c t : Nat) : Nat :=
  if 0 < t then (200 * c + t) / (2 * t) else 0

/-- Reference tallies for the scorer theorems: how many zipped positions carry
the given subject. -/
def countTotal (pairs : List (Question × TestAnswer)) (s : String) : Nat :=
  pairs.countP (fun p => p.1.subject == s)

/-- Reference tallies for the scorer theorems: how many zipped positions carry
the given subject and a correct answer. -/
def countCorrect (pairs : List (Question × TestAnswer)) (s : String) : Nat :=
  pairs.countP (fun p => p.1.subject == s && isCorrect p.1 p.2)

/-- The scorer's observable output, one `(subject, correct, total, percentage)`
tuple per entry of `subjectScores` in key order. -/
def scoreReport (st : TestState) : List (String × Nat × Nat × Nat) :=
  (presentSubjects (scorePairs st)).map fun s =>
    let ct := (subjectScoresMap (scorePairs st) s).getD (0, 0)
    (s, ct.1, ct.2, subjectPercentage ct.1 ct.2)

/-- A row of the `test_results` batch insert built by `submitTest`; the
serialized `questions`/`answers` snapshots are kept as the filtered lists
themselves. -/
structure TestResultRow where
  email : String
  test_time : Option Nat
  subject : String
  questions : List Question
  answers : List TestAnswer
  score : Nat
  duration_seconds : Nat
deriving DecidableEq

/-- `Math.floor((now - startTime) / 1000)` when a start time exists, else 0. -/
def sessionDuration (st : TestState) (now : Nat) : Nat :=
  match st.startTime with
  | some t0 => (now - t0) / 1000
  | none => 0

/-- The `testResults` array of `submitTest`: one row per `subjectScores` entry,
carrying the submitter's email, the start time, that subject's filtered
question and answer snapshots, the rounded percentage and the duration. -/
def buildTestResults (u : User) (now : Nat) (st : TestState) : List TestResultRow :=
  (presentSubjects (scorePairs st)).map fun s =>
    let ct := (subjectScoresMap (scorePairs st) s).getD (0, 0)
    { email := u.email,
      test_time := st.startTime,
      subject := s,
      questions := st.questions.filter (fun q => q.subject == s),
      answers := ((st.questions.zip st.answers).filter (fun p => p.1.subject == s)).map
        (fun p => p.2),
      score := subjectPercentage ct.1 ct.2,
      duration_seconds := sessionDuration st now }

/-- The two failure modes of `submitTest`: the `throw new Error('User not
authenticated')` guard and a rethrown batch-insert error. -/
inductive SubmitError where
  | authRequired : SubmitError
  | persistenceError : SubmitError
deriving DecidableEq

/-- What a call to `submitTest` leaves behind: the value or error returned to
the caller, the resulting session state, the `testResults` rows that were
built, and whether the batch insert committed. -/
structure SubmitOutcome where
  result : Except SubmitError Unit
  state : TestState
  built : List TestResultRow
  persisted : Bool

/-- `submitTest`: throws before building anything when no user is
authenticated; otherwise builds the rows and runs the batch insert, rethrowing
its error (leaving the state untouched) or calling `endTest` on success.
`insertFails` models the backend insert returning an error. -/
def submitTest (user : Option User) (insertFails : Bool) (now : Nat) (st : TestState) :
    SubmitOutcome :=
  match user with
  | none => ⟨Except.error SubmitError.authRequired, st, [], false⟩
  | some u =>
      let results := buildTestResults u now st
      if insertFails then ⟨Except.error SubmitError.persistenceError, st, results, false⟩
      else ⟨Except.ok (), endTest st, results, true⟩

/-- The mutating session operations named by the alignment invariant. -/
inductive TestOp where
  | select : String → Int → TestOp
  | mark : String → TestOp
  | navigate : Int → TestOp
  | next : TestOp
  | prev : TestOp
deriving DecidableEq

/-- Dispatch of a mutating operation to its implementation. -/
def applyOp (op : TestOp) (st : TestState) : TestState :=
  match op with
  | TestOp.select qid a => selectAnswer qid a st
  | TestOp.mark qid => markForReview qid st
  | TestOp.navigate i => navigateToQuestion i st
  | TestOp.next => nextQuestion st
  | TestOp.prev => previousQuestion st

/-- A whole interaction: the operations applied in order. -/
def applyOps (ops : List TestOp) (st : TestState) : TestState :=
  ops.foldl (fun st op => applyOp op st) st

/-- The cursor-only operations of the clamping claim. -/
inductive NavOp where
  | next : NavOp
  | prev : NavOp
deriving DecidableEq

/-- Dispatch of a cursor operation. -/
def applyNavOp (op : NavOp) (st : TestState) : TestState :=
  match op with
  | NavOp.next => nextQuestion st
  | NavOp.prev => previousQuestion st

/-- A sequence of `nextQuestion`/`previousQuestion` calls in order. -/
def applyNavOps (ops : List NavOp) (st : TestState) : TestState :=
  ops.foldl (fun st op => applyNavOp op st) st

/-- A concrete authenticated user for witness instantiations. -/
def sampleUser : User :=
  { id := "u1", email := "u1@example.com", name := "User One", picture := none,
    isRegistered := some true }

/-- The scorer test vector of the spec: two Math questions with correct indices
0 and 1, both answered with option 0. -/
def exampleMathState : TestState :=
  { questions :=
      [ { id := "m1", subject := "Math", question := "q1",
          options := ["a", "b", "c", "d"], correctAnswer := 0, difficulty := "easy" },
        { id := "m2", subject := "Math", question := "q2",
          options := ["a", "b", "c", "d"], correctAnswer := 1, difficulty := "easy" } ],
    answers :=
      [ { questionId := "m1", selectedAnswer := some 0, timeSpent := 0, marked := false },
        { questionId := "m2", selectedAnswer := some 0, timeSpent := 0, marked := false } ],
    currentQuestion := 0, timeRemaining := 3600, isActive := true, startTime := none }

lemma markUpdate_involutive (questionId : String) (a : TestAnswer) :
    markUpdate questionId (markUpdate questionId a) = a := by
  cases a with
  | mk q sel ts m =>
    by_cases h : (q == questionId) = true
    · simp [markUpdate, h, Bool.not_not]
    · simp [markUpdate, h]

/-- C8: toggling the review mark twice with the same question id restores the
whole session state, marked flag included. -/
theorem markForReview_involutive (questionId : String) (st : TestState) :
    markForReview questionId (markForReview questionId st) = st := by
  cases st with
  | mk qs ans cur t act st0 =>
    simp only [markForReview]
    congr 1
    rw [List.map_map]
    have : ∀ l : List TestAnswer,
        l.map (markUpdate questionId ∘ markUpdate questionId) = l := by
      intro l
      induction l with
      | nil => rfl
      | cons a rest ih => simp [markUpdate_involutive, ih]
    exact this ans

/-- C9: `navigateToQuestion` stores the requested index verbatim, whatever
integer it is, leaving every other field of the state unchanged. -/
theorem navigateToQuestion_verbatim (index : Int) (st : TestState) :
    navigateToQuestion index st = { st with currentQuestion := index } := rfl

/-- C6: an answer record whose `selectedAnswer` is null is never counted
correct by the scorer's comparison, whatever the question's correct index. -/
theorem null_answer_never_correct (q : Question) (a : TestAnswer)
    (h : a.selectedAnswer = none) : isCorrect q a = false := by
  simp [isCorrect, h]

/-- A concrete question for witness instantiations. -/
def sampleQuestion : Question :=
  { id := "m1", subject := "Math", question := "q1",
    options := ["a", "b", "c", "d"], correctAnswer := 0, difficulty := "easy" }

theorem null_answer_never_correct_witness :
    (initAnswer sampleQuestion).selectedAnswer = none ∧
    isCorrect sampleQuestion (initAnswer sampleQuestion) = false :=
  ⟨rfl, null_answer_never_correct _ _ rfl⟩

/-- C4: submitting with no authenticated user returns the AuthenticationRequired
error, keeps the entire session state unchanged (still active if it was, same
questions, answers, cursor and timer), and builds and persists no rows. -/
theorem submit_requires_auth (insertFails : Bool) (now : Nat) (st : TestState) :
    submitTest none insertFails now st =
      { result := Except.error SubmitError.authRequired, state := st, built := [],
        persisted := false } := rfl

/-- C3: with an authenticated user and an active session, a failing batch insert
surfaces the persistence error and leaves the session active, while a
successful insert returns cleanly and deactivates the session. -/
theorem submit_persistence_outcome (u : User) (insertFails : Bool) (now : Nat)
    (st : TestState) (h : st.isActive = true) :
    (submitTest (some u) insertFails now st).result =
      (if insertFails then Except.error SubmitError.persistenceError else Except.ok ()) ∧
    (submitTest (some u) insertFails now st).state.isActive = insertFails := by
  cases insertFails
  · simp [submitTest, endTest]
  · simp [submitTest, h]

theorem submit_persistence_outcome_witness :
    (initSession mockQuestions 0).isActive = true ∧
    ((submitTest (some sampleUser) true 0 (initSession mockQuestions 0)).result =
        (if true then Except.error SubmitError.persistenceError else Except.ok ()) ∧
      (submitTest (some sampleUser) true 0 (initSession mockQuestions 0)).state.isActive =
        true) :=
  ⟨rfl, submit_persistence_outcome sampleUser true 0 (initSession mockQuestions 0) rfl⟩

lemma applyNavOp_questions (op : NavOp) (st : TestState) :
    (applyNavOp op st).questions = st.questions := by
  cases op <;> rfl

lemma applyNavOp_bounds (op : NavOp) (st : TestState)
    (h0 : 0 ≤ st.currentQuestion)
    (h1 : st.currentQuestion ≤ (st.questions.length : Int) - 1) :
    0 ≤ (applyNavOp op st).currentQuestion ∧
    (applyNavOp op st).currentQuestion ≤ ((applyNavOp op st).questions.length : Int) - 1 := by
  cases op <;>
    simp only [applyNavOp, nextQuestion, previousQuestion] <;>
    constructor <;> omega

/-- C5: starting from any state whose cursor lies in `[0, len(questions)-1]`,
no sequence of `nextQuestion`/`previousQuestion` calls can move the cursor out
of that range: the min/max clamps stop it at either boundary. -/
theorem nav_cursor_bounded (ops : List NavOp) (st : TestState)
    (h0 : 0 ≤ st.currentQuestion)
    (h1 : st.currentQuestion ≤ (st.questions.length : Int) - 1) :
    0 ≤ (applyNavOps ops st).currentQuestion ∧
    (applyNavOps ops st).currentQuestion ≤
      ((applyNavOps ops st).questions.length : Int) - 1 := by
  induction ops generalizing st with
  | nil => exact ⟨h0, h1⟩
  | cons op rest ih =>
    have hb := applyNavOp_bounds op st h0 h1
    simpa only [applyNavOps, List.foldl_cons] using ih (applyNavOp op st) hb.1 hb.2

theorem nav_cursor_bounded_witness :
    (0 ≤ (initSession mockQuestions 0).currentQuestion ∧
      (initSession mockQuestions 0).currentQuestion ≤
        ((initSession mockQuestions 0).questions.length : Int) - 1) ∧
    (0 ≤ (applyNavOps [NavOp.prev, NavOp.next, NavOp.next]
        (initSession mockQuestions 0)).currentQuestion ∧
      (applyNavOps [NavOp.prev, NavOp.next, NavOp.next]
          (initSession mockQuestions 0)).currentQuestion ≤
        ((applyNavOps [NavOp.prev, NavOp.next, NavOp.next]
            (initSession mockQuestions 0)).questions.length : Int) - 1) :=
  ⟨⟨by decide, by decide⟩,
    nav_cursor_bounded [NavOp.prev, NavOp.next, NavOp.next] (initSession mockQuestions 0)
      (by decide) (by decide)⟩

/-- Positional alignment of the parallel sequences: the answer records list the
question ids in the sessions question order. -/
def aligned (st : TestState) : Prop :=
  st.answers.map TestAnswer.questionId = st.questions.map Question.id

lemma selUpdate_questionId (questionId : String) (answer : Int) (a : TestAnswer) :
    (selUpdate questionId answer a).questionId = a.questionId := by
  unfold selUpdate; split <;> rfl

lemma markUpdate_questionId (questionId : String) (a : TestAnswer) :
    (markUpdate questionId a).questionId = a.questionId := by
  unfold markUpdate; split <;> rfl

lemma aligned_initSession (finalQuestions : List Question) (now : Nat) :
    aligned (initSession finalQuestions now) := by
  unfold aligned initSession
  rw [List.map_map]
  rfl

lemma aligned_applyOp (op : TestOp) (st : TestState) (h : aligned st) :
    aligned (applyOp op st) := by
  cases op with
  | select qid a =>
    unfold aligned applyOp selectAnswer
    rw [List.map_map]
    calc st.answers.map (TestAnswer.questionId ∘ selUpdate qid a)
        = st.answers.map TestAnswer.questionId := by
          apply List.map_congr_left
          intro x _
          exact selUpdate_questionId qid a x
      _ = st.questions.map Question.id := h
  | mark qid =>
    unfold aligned applyOp markForReview
    rw [List.map_map]
    calc st.answers.map (TestAnswer.questionId ∘ markUpdate qid)
        = st.answers.map TestAnswer.questionId := by
          apply List.map_congr_left
          intro x _
          exact markUpdate_questionId qid x
      _ = st.questions.map Question.id := h
  | navigate i => exact h
  | next => exact h
  | prev => exact h

lemma aligned_applyOps (ops : List TestOp) :
    ∀ st : TestState, aligned st → aligned (applyOps ops st) := by
  induction ops with
  | nil => intro st h; exact h
  | cons op rest ih =>
    intro st h
    simpa only [applyOps, List.foldl_cons] using ih (applyOp op st) (aligned_applyOp op st h)

/-- C1: every state reached from a freshly started session by any sequence of
`selectAnswer`, `markForReview`, `navigateToQuestion`, `nextQuestion` and
`previousQuestion` calls has as many answer records as questions, with
`answers[i].questionId = questions[i].id` at every position. -/
theorem session_alignment_invariant (finalQuestions : List Question) (now : Nat)
    (ops : List TestOp) :
    (applyOps ops (initSession finalQuestions now)).answers.length =
      (applyOps ops (initSession finalQuestions now)).questions.length ∧
    (applyOps ops (initSession finalQuestions now)).answers.map TestAnswer.questionId =
      (applyOps ops (initSession finalQuestions now)).questions.map Question.id := by
  have h := aligned_applyOps ops (initSession finalQuestions now)
    (aligned_initSession finalQuestions now)
  refine ⟨?_, h⟩
  have hlen := congrArg List.length h
  simpa using hlen

/-- C7: when the remote read errors, returns no rows, or throws, the candidate
pool is the built-in `mockQuestions` set, so for any shuffle outcome the
session holds `min 6 (length mockQuestions) = 6` questions, all drawn from the
fallback set.  `loadQuestions` is total, so no load failure reaches the caller
of `startTest`. -/
theorem fallback_session_on_remote_failure (r : RemoteResult)
    (shuffled : List Question) (now : Nat)
    (hr : r = RemoteResult.err ∨ r = RemoteResult.ok [] ∨ r = RemoteResult.thrown)
    (hp : shuffled.Perm (selectedPool r)) :
    (loadQuestions shuffled now).questions.length = min 6 mockQuestions.length ∧
    min 6 mockQuestions.length = 6 ∧
    ∀ q ∈ (loadQuestions shuffled now).questions, q ∈ mockQuestions := by
  have hpool : selectedPool r = mockQuestions := by
    rcases hr with h | h | h <;> subst h <;> rfl
  rw [hpool] at hp
  have hlen : shuffled.length = mockQuestions.length := hp.length_eq
  refine ⟨?_, rfl, ?_⟩
  · show (shuffled.take (min 6 shuffled.length)).length = min 6 mockQuestions.length
    rw [List.length_take, hlen]
    omega
  · intro q hq
    exact hp.subset (List.take_subset _ _ hq)

theorem fallback_session_on_remote_failure_witness :
    (RemoteResult.err = RemoteResult.err ∨ RemoteResult.err = RemoteResult.ok [] ∨
      RemoteResult.err = RemoteResult.thrown) ∧
    List.Perm mockQuestions (selectedPool RemoteResult.err) ∧
    ((loadQuestions mockQuestions 0).questions.length = min 6 mockQuestions.length ∧
      min 6 mockQuestions.length = 6 ∧
      ∀ q ∈ (loadQuestions mockQuestions 0).questions, q ∈ mockQuestions) :=
  ⟨Or.inl rfl, List.Perm.refl _,
    fallback_session_on_remote_failure RemoteResult.err mockQuestions 0 (Or.inl rfl)
      (List.Perm.refl _)⟩

lemma foldl_tallyAnswer (pairs : List (Question × TestAnswer)) :
    ∀ (m : String → Option (Nat × Nat)) (s : String),
    pairs.foldl tallyAnswer m s =
      match m s with
      | some ct => some (ct.1 + countCorrect pairs s, ct.2 + countTotal pairs s)
      | none =>
          if 0 < countTotal pairs s then
            some (countCorrect pairs s, countTotal pairs s)
          else none := by
  induction pairs with
  | nil =>
    intro m s
    cases hm : m s with
    | none => simp [countCorrect, countTotal, hm]
    | some ct => simp [countCorrect, countTotal, hm]
  | cons p rest ih =>
    intro m s
    rw [List.foldl_cons, ih]
    by_cases hs : s = p.1.subject
    · have hbeq : (p.1.subject == s) = true := by simp [hs]
      have htot : countTotal (p :: rest) s = countTotal rest s + 1 := by
        simp [countTotal, List.countP_cons, hbeq]
      have hcor : countCorrect (p :: rest) s =
          countCorrect rest s + (if isCorrect p.1 p.2 then 1 else 0) := by
        simp [countCorrect, List.countP_cons, hbeq]
      have hm : tallyAnswer m p s =
          some (((m s).getD (0, 0)).1 + (if isCorrect p.1 p.2 then 1 else 0),
            ((m s).getD (0, 0)).2 + 1) := by
        simp [tallyAnswer, hs]
      rw [hm, htot, hcor]
      cases hms : m s with
      | none => simp; omega
      | some ct => simp [hms]; omega
    · have hbeq : (p.1.subject == s) = false := by
        simp only [beq_eq_false_iff_ne, ne_eq]
        intro hcon
        exact hs hcon.symm
      have htot : countTotal (p :: rest) s = countTotal rest s := by
        simp [countTotal, List.countP_cons, hbeq]
      have hcor : countCorrect (p :: rest) s = countCorrect rest s := by
        simp [countCorrect, List.countP_cons, hbeq]
      have hm : tallyAnswer m p s = m s := by
        simp [tallyAnswer, hs]
      rw [hm, htot, hcor]

lemma subjectScoresMap_eq (pairs : List (Question × TestAnswer)) (s : String) :
    subjectScoresMap pairs s =
      if 0 < countTotal pairs s then some (countCorrect pairs s, countTotal pairs s)
      else none := by
  simpa [subjectScoresMap] using foldl_tallyAnswer pairs (fun _ => none) s

lemma countTotal_cons (p : Question × TestAnswer) (rest : List (Question × TestAnswer))
    (s : String) :
    countTotal (p :: rest) s =
      countTotal rest s + (if p.1.subject = s then 1 else 0) := by
  simp only [countTotal, List.countP_cons]
  by_cases h : p.1.subject = s
  · simp [h]
  · simp [h]

lemma foldl_addSubject_mem (pairs : List (Question × TestAnswer)) :
    ∀ (acc : List String) (s : String),
    s ∈ pairs.foldl addSubject acc ↔ s ∈ acc ∨ 0 < countTotal pairs s := by
  induction pairs with
  | nil =>
    intro acc s
    simp [countTotal]
  | cons p rest ih =>
    intro acc s
    rw [List.foldl_cons, ih, countTotal_cons]
    have hstep : s ∈ addSubject acc p ↔ s ∈ acc ∨ s = p.1.subject := by
      unfold addSubject
      split
      · rename_i hin
        constructor
        · exact fun h => Or.inl h
        · rintro (h | h)
          · exact h
          · rw [h]; exact hin
      · simp [List.mem_append]
    rw [hstep]
    by_cases h : p.1.subject = s
    · subst h
      simp
    · have hne : ¬s = p.1.subject := fun hcon => h hcon.symm
      simp [h, hne]

lemma mem_presentSubjects (pairs : List (Question × TestAnswer)) (s : String) :
    s ∈ presentSubjects pairs ↔ 0 < countTotal pairs s := by
  have h := foldl_addSubject_mem pairs [] s
  simpa [presentSubjects] using h

/-- C2: the scorer's `subjectScores` map holds, for exactly the subjects that
occur among the zipped question/answer positions, the pair of the correct count
and the total count (and nothing for absent subjects); the emitted report
carries exactly one entry per present subject, with that correct count, that
total and the rounded percentage; and on the spec's two-Math-question vector it
reports `(Math, correct 1, total 2, percentage 50)` and nothing else. -/
theorem scorer_subject_partition :
    (∀ (qs : List Question) (ans : List TestAnswer) (s : String),
       subjectScoresMap (qs.zip ans) s =
         if 0 < countTotal (qs.zip ans) s then
           some (countCorrect (qs.zip ans) s, countTotal (qs.zip ans) s)
         else none) ∧
    (∀ (st : TestState) (e : String × Nat × Nat × Nat),
       e ∈ scoreReport st ↔
         0 < countTotal (scorePairs st) e.1 ∧
         e = (e.1, countCorrect (scorePairs st) e.1, countTotal (scorePairs st) e.1,
           subjectPercentage (countCorrect (scorePairs st) e.1)
             (countTotal (scorePairs st) e.1))) ∧
    scoreReport exampleMathState = [("Math", 1, 2, 50)] := by
  refine ⟨fun qs ans s => subjectScoresMap_eq (qs.zip ans) s, ?_, by decide⟩
  intro st e
  constructor
  · intro he
    rw [scoreReport, List.mem_map] at he
    obtain ⟨s, hs, rfl⟩ := he
    have hpos : 0 < countTotal (scorePairs st) s := (mem_presentSubjects _ s).mp hs
    simp only [subjectScoresMap_eq, if_pos hpos, Option.getD_some]
    exact ⟨hpos, trivial⟩
  · rintro ⟨hpos, he⟩
    rw [scoreReport, List.mem_map]
    refine ⟨e.1, (mem_presentSubjects _ e.1).mpr hpos, ?_⟩
    simp only [subjectScoresMap_eq, if_pos hpos, Option.getD_some]
    exact he.symm

lemma countCorrect_le_countTotal (pairs : List (Question × TestAnswer)) (s : String) :
    countCorrect pairs s ≤ countTotal pairs s := by
  unfold countCorrect countTotal
  induction pairs with
  | nil => simp
  | cons p rest ih =>
    simp only [List.countP_cons]
    have hle : (if (p.1.subject == s && isCorrect p.1 p.2) = true then 1 else 0) ≤
        (if (p.1.subject == s) = true then 1 else 0) := by
      cases hba : (p.1.subject == s && isCorrect p.1 p.2) with
      | false => simp [hba]
      | true =>
        have hb1 : (p.1.subject == s) = true := ((Bool.and_eq_true _ _).mp hba).1
        simp [hba, hb1]
    omega

lemma subjectScoresMap_getD_fst_le (pairs : List (Question × TestAnswer)) (s : String) :
    ((subjectScoresMap pairs s).getD (0, 0)).1 ≤ ((subjectScoresMap pairs s).getD (0, 0)).2 := by
  have h := foldl_tallyAnswer pairs (fun _ => none) s
  have h2 : subjectScoresMap pairs s =
      if 0 < countTotal pairs s then some (countCorrect pairs s, countTotal pairs s)
      else none := by simpa [subjectScoresMap] using h
  rw [h2]
  by_cases ht : 0 < countTotal pairs s
  · simpa [ht] using countCorrect_le_countTotal pairs s
  · simp [ht]

lemma subjectPercentage_le_100 (c t : Nat) (h : c ≤ t) : subjectPercentage c t ≤ 100 := by
  unfold subjectPercentage
  split
  · rename_i ht
    have h1 : 200 * c + t ≤ 201 * t := by omega
    have h2 : (200 * c + t) / (2 * t) ≤ 201 * t / (2 * t) := Nat.div_le_div_right h1
    have h3 : 201 * t / (2 * t) = 100 := by
      have ha : 201 * t = t + 2 * t * 100 := by ring
      rw [ha, Nat.add_mul_div_left _ _ (by omega : 0 < 2 * t),
        Nat.div_eq_of_lt (by omega : t < 2 * t)]
    omega
  · exact Nat.zero_le 100

/-- C10: every `test_results` row that a `submitTest` call builds carries a
score of at most 100 (and it is a natural number, hence at least 0): each
subject's correct count never exceeds its total, and the rounded percentage of
a fraction of at most 1 is at most 100. -/
theorem submit_scores_bounded (user : Option User) (insertFails : Bool) (now : Nat)
    (st : TestState) :
    ((submitTest user insertFails now st).built.map TestResultRow.score).all
      (fun x => x ≤ 100) = true := by
  rw [List.all_eq_true]
  intro x hx
  rw [List.mem_map] at hx
  obtain ⟨row, hrow, rfl⟩ := hx
  have hscore : ∀ (u : User), row ∈ buildTestResults u now st → row.score ≤ 100 := by
    intro u hmem
    rw [buildTestResults, List.mem_map] at hmem
    obtain ⟨s, _, rfl⟩ := hmem
    simpa using subjectPercentage_le_100 _ _ (subjectScoresMap_getD_fst_le (scorePairs st) s)
  cases user with
  | none => simp [submitTest] at hrow
  | some u =>
    cases insertFails with
    | false =>
      simp only [submitTest] at hrow
      exact decide_eq_true (hscore u hrow)
    | true =>
      simp only [submitTest] at hrow
      exact decide_eq_true (hscore u hrow)

end TestContext
